import Mathlib

/-!
Verification development for the risk-metrics dashboard (`app.py`).

The script computes, for each stock and frequency, a return series from a
price series (`calculate_returns`, lines 15-17) and seven risk/performance
statistics (`calculate_metrics`, lines 20-56), wiring them together with
dict comprehensions (lines 63-74).

Embedding conventions:
* A float value held by a pandas Series / numpy array is modelled as
  `Option ℚ`: `some q` is the finite value `q`, `none` is a non-finite
  value (NaN or ±infinity).  Finite-float arithmetic is exact rational
  arithmetic here; every operation producing a non-finite value (division
  by zero, any operation touching NaN) yields `none`.
* Quantities whose computation applies a square root (`std`, volatility,
  Sharpe ratio, the correlation coefficient, downside deviation) live in
  `Option ℝ`.
* pandas reductions (`mean`, `std`, `min`, `cumprod`, `cummax`, boolean
  masks) skip NaN entries (`skipna=True` defaults); numpy functions
  (`np.cov`, `np.corrcoef`, `np.percentile`) propagate NaN.  Both
  behaviours are modelled separately below.
* `np.cov` raises a `ValueError` when its two inputs have different
  lengths; this is the only exception the metric computation can raise,
  and it is modelled with `Except`.  `np.percentile` also raises on an
  empty input; that case is noted at `var_95` and kept outside every
  theorem by nonemptiness hypotheses.
* Timestamps are abstracted away: `resample(freq).ffill()` is the
  identity on a price series already aligned to the target frequency
  grid, so `calculate_returns` is modelled on the resampled price list.
-/

namespace App

/-- A floating-point value: `some q` is a finite value, `none` is NaN/±inf. -/
abbrev FVal := Option ℚ

/-- The finite (non-NaN) entries of a series, in order (what pandas
`skipna=True` reductions operate on). -/
def fvals (xs : List FVal) : List ℚ := xs.filterMap id

/-- Every entry of the series is finite (no NaN/inf). -/
def allFinite (xs : List FVal) : Prop := ∀ x ∈ xs, x ≠ none

instance (xs : List FVal) : Decidable (allFinite xs) := by
  unfold allFinite; infer_instance

/-- IEEE addition on possibly-non-finite values: NaN propagates. -/
def fadd : FVal → FVal → FVal
  | some a, some b => some (a + b)
  | _, _ => none

/-- IEEE subtraction on possibly-non-finite values: NaN propagates. -/
def fsub : FVal → FVal → FVal
  | some a, some b => some (a - b)
  | _, _ => none

/-- IEEE multiplication on possibly-non-finite values: NaN propagates. -/
def fmul : FVal → FVal → FVal
  | some a, some b => some (a * b)
  | _, _ => none

/-- IEEE division: NaN propagates, and a zero divisor produces a
non-finite value (±inf for a nonzero numerator, NaN for 0/0). -/
def fdiv : FVal → FVal → FVal
  | some a, some b => if b = 0 then none else some (a / b)
  | _, _ => none

/-- Arithmetic mean of a rational list (callers guard the empty case). -/
def meanQ (l : List ℚ) : ℚ := l.sum / l.length

/-- Sample variance with `ddof=1` (the pandas/numpy default). -/
def svarQ (l : List ℚ) : ℚ :=
  ((l.map (fun x => (x - meanQ l) ^ 2)).sum) / ((l.length : ℚ) - 1)

/-- Sample covariance with `ddof=1`, over two already-aligned lists
(the `np.cov` entry `[0,1]`). -/
def covQ (xs ys : List ℚ) : ℚ :=
  ((List.zipWith (fun a b => (a - meanQ xs) * (b - meanQ ys)) xs ys).sum) /
    ((xs.length : ℚ) - 1)

/-- `Series.mean()` / `np.mean(series)` (line 24): the mean over the
non-NaN entries; NaN when there are none. -/
def skipmean (xs : List FVal) : FVal :=
  if fvals xs = [] then none else some (meanQ (fvals xs))

/-- The variance underlying `Series.std()` (lines 27, 30, 43): sample
variance over the non-NaN entries; NaN when fewer than 2 remain
(`ddof=1` makes the denominator zero). -/
def skipvar (xs : List FVal) : FVal :=
  if (fvals xs).length < 2 then none else some (svarQ (fvals xs))

/-- `Series.std()`: square root of the skip-NaN sample variance. -/
noncomputable def stdR (xs : List FVal) : Option ℝ :=
  match skipvar xs with
  | some v => some (Real.sqrt ((v : ℚ) : ℝ))
  | none => none

/-- An `np.cov(xs, ys)` off-diagonal/diagonal entry (line 22): numpy does
not skip NaN, so any non-finite entry poisons the result, as does
`ddof=1` with fewer than 2 columns.  The equal-length requirement (numpy
raises otherwise) is enforced by the caller `calculate_metrics`. -/
def covF (xs ys : List FVal) : FVal :=
  if allFinite xs ∧ allFinite ys ∧ 2 ≤ xs.length then
    some (covQ (fvals xs) (fvals ys))
  else none

/-- Line 23: `beta = covariance_matrix[0, 1] / covariance_matrix[1, 1]`. -/
def beta (returns benchmark_returns : List FVal) : FVal :=
  fdiv (covF returns benchmark_returns) (covF benchmark_returns benchmark_returns)

/-- Line 24: `alpha = np.mean(returns) - beta * np.mean(benchmark_returns)`
(`np.mean` on a pandas Series delegates to `Series.mean`, which skips NaN). -/
def alpha (returns benchmark_returns : List FVal) : FVal :=
  fsub (skipmean returns) (fmul (beta returns benchmark_returns) (skipmean benchmark_returns))

/-- Line 27: `annualized_volatility = returns.std() * np.sqrt(252)`.
The factor is the literal constant 252, whatever the sampling frequency. -/
noncomputable def annualized_volatility (returns : List FVal) : Option ℝ :=
  (stdR returns).map (fun s => s * Real.sqrt 252)

/-- Line 30: `sharpe_ratio = returns.mean() / returns.std()`; a zero or
NaN standard deviation makes the float quotient non-finite. -/
noncomputable def sharpe_ratio (returns : List FVal) : Option ℝ :=
  match skipmean returns, stdR returns with
  | some m, some s => if s = 0 then none else some ((m : ℝ) / s)
  | _, _ => none

/-- `Series.cumprod()` with `skipna=True`: a NaN entry stays NaN in the
output but does not interrupt the running product of the finite entries. -/
def cumprodSkip (acc : ℚ) : List FVal → List FVal
  | [] => []
  | none :: rest => none :: cumprodSkip acc rest
  | some x :: rest => some (acc * x) :: cumprodSkip (acc * x) rest

/-- `Series.cummax()` with `skipna=True`: the state is the maximum of the
finite entries seen so far (absent until the first finite entry). -/
def cummaxSkip : Option ℚ → List FVal → List FVal
  | _, [] => []
  | acc, none :: rest => none :: cummaxSkip acc rest
  | none, some x :: rest => some x :: cummaxSkip (some x) rest
  | some m, some x :: rest => some (max m x) :: cummaxSkip (some (max m x)) rest

/-- Minimum of a nonempty rational list. -/
def listMinQ : List ℚ → Option ℚ
  | [] => none
  | x :: xs => some (xs.foldl min x)

/-- `Series.min()` with `skipna=True`: minimum of the finite entries,
NaN when there are none. -/
def minSkip (xs : List FVal) : FVal := listMinQ (fvals xs)

/-- Lines 33-36:
`cumulative_returns = (1 + returns).cumprod()`,
`peak = cumulative_returns.cummax()`,
`drawdown = (cumulative_returns - peak) / peak`,
`max_drawdown = drawdown.min()`. -/
def max_drawdown (returns : List FVal) : FVal :=
  let cumulative_returns := cumprodSkip 1 (returns.map (fun x => fadd (some 1) x))
  let peak := cummaxSkip none cumulative_returns
  minSkip (List.zipWith (fun c p => fdiv (fsub c p) p) cumulative_returns peak)

/-- Line 39's `np.corrcoef(returns, benchmark_returns)[0, 1]`: the
covariance entry divided by the product of the square roots of the two
variance entries (all `np.cov`-style, NaN-poisoned); a zero denominator
makes the float quotient non-finite. -/
noncomputable def corrcoefR (returns benchmark_returns : List FVal) : Option ℝ :=
  match covF returns benchmark_returns, covF returns returns,
      covF benchmark_returns benchmark_returns with
  | some c, some vx, some vy =>
      if Real.sqrt (vx : ℝ) * Real.sqrt (vy : ℝ) = 0 then none
      else some ((c : ℝ) / (Real.sqrt (vx : ℝ) * Real.sqrt (vy : ℝ)))
  | _, _, _ => none

/-- Line 39: `r_squared = np.corrcoef(returns, benchmark_returns)[0, 1] ** 2`. -/
noncomputable def r_squared (returns benchmark_returns : List FVal) : Option ℝ :=
  (corrcoefR returns benchmark_returns).map (fun c => c ^ 2)

/-- Line 42: `downside_returns = returns[returns < 0]`; the comparison
`NaN < 0` is false, so non-finite entries are dropped by the mask. -/
def downside_returns (returns : List FVal) : List FVal :=
  returns.filter (fun x => match x with
    | some v => decide (v < 0)
    | none => false)

/-- Line 43: `downside_deviation = downside_returns.std()`. -/
noncomputable def downside_deviation (returns : List FVal) : Option ℝ :=
  stdR (downside_returns returns)

/-- Insert into a sorted rational list (ascending). -/
def insertSorted (x : ℚ) : List ℚ → List ℚ
  | [] => [x]
  | y :: ys => if x ≤ y then x :: y :: ys else y :: insertSorted x ys

/-- Ascending sort of a rational list. -/
def sortQ (l : List ℚ) : List ℚ := l.foldr insertSorted []

/-- `np.percentile(l, 5)` with the default linear interpolation: sort
ascending, take the fractional rank `(n-1) * 0.05`, and interpolate
between the two neighbouring order statistics. -/
def percentile5 (l : List ℚ) : Option ℚ :=
  if l = [] then none
  else
    let s := sortQ l
    let pos : ℚ := ((l.length : ℚ) - 1) * (5 / 100)
    let k : ℕ := pos.floor.toNat
    let d : ℚ := pos - (k : ℚ)
    some (s.getD k 0 + d * (s.getD (k + 1) (s.getD k 0) - s.getD k 0))

/-- Line 46: `var_95 = np.percentile(returns, 5)`.  numpy does not skip
NaN, so any non-finite entry poisons the result.  (On an empty input
`np.percentile` raises; all theorems below keep the series nonempty.) -/
def var_95 (returns : List FVal) : FVal :=
  if allFinite returns then percentile5 (fvals returns) else none

/-- Lines 48-56: the dict returned by `calculate_metrics`. -/
structure MetricsResult where
  Alpha : FVal
  Volatility : Option ℝ
  SharpeRatio : Option ℝ
  MaxDrawdown : FVal
  RSquared : Option ℝ
  DownsideDeviation : Option ℝ
  VaR95 : FVal

/-- Failure taxonomy of the spec (§7).  The script itself can only raise
`lengthMismatch` (the `ValueError` from `np.cov` on ragged input);
`insufficientHistory` and `degenerateVariance` are modelled from the
spec and are never produced by the code. -/
inductive MetricsError
  | lengthMismatch
  | insufficientHistory
  | degenerateVariance
  deriving DecidableEq

/-- Lines 20-56: `calculate_metrics(returns, benchmark_returns)`.  The
first executed statement, `np.cov(returns, benchmark_returns)` (line 22),
raises a `ValueError` when the two series differ in length; every other
degenerate case propagates through float arithmetic as NaN/inf instead
of raising. -/
noncomputable def calculate_metrics (returns benchmark_returns : List FVal) :
    Except MetricsError MetricsResult :=
  if returns.length ≠ benchmark_returns.length then .error .lengthMismatch
  else .ok
    { Alpha := alpha returns benchmark_returns
      Volatility := annualized_volatility returns
      SharpeRatio := sharpe_ratio returns
      MaxDrawdown := max_drawdown returns
      RSquared := r_squared returns benchmark_returns
      DownsideDeviation := downside_deviation returns
      VaR95 := var_95 returns }

/-- Helper for `pct_change`: simple returns `q/prev - 1` along the list. -/
def pctChangeAux (prev : ℚ) : List ℚ → List FVal
  | [] => []
  | q :: rest => some (q / prev - 1) :: pctChangeAux q rest

/-- Lines 15-17: `calculate_returns(data, freq)` =
`data.resample(freq).ffill().pct_change()`.  Resampling plus forward-fill
is the identity on a price series already aligned to the frequency grid
(timestamps are abstracted), and `pct_change` keeps the first entry as
NaN: the output has the same length as the input. -/
def calculate_returns (prices : List ℚ) : List FVal :=
  match prices with
  | [] => []
  | p :: rest => none :: pctChangeAux p rest

/-- The sampling frequencies of the script: lines 63-65 / 67-69 / 72-74
use the pandas rules `'1d'`, `'M'`, `'T'`. -/
inductive FrequencySpec
  | daily
  | monthly
  | intraday
  deriving DecidableEq

/-- Modelled from the spec: §2/§3 say a FrequencySpec "carries … an
annualization factor (trading periods per year)", §4.2 gives 252 for
daily; for Monthly the trading periods per year are the 12 months; for
Intraday the spec fixes no number, so the factor is left unspecified.
The code itself carries no such field (it hardcodes 252 at line 27). -/
noncomputable def annualizationFactor : FrequencySpec → Option ℝ
  | .daily => some 252
  | .monthly => some 12
  | .intraday => none

/-- Lines 63-74: for each frequency the script computes
`calculate_metrics(calculate_returns(prices, freq), calculate_returns(bench, freq))`.
The frequency string is passed only to the external resample grid (our
price lists are already frequency-aligned), so the metric computation is
the same function for every frequency. -/
noncomputable def metricsAtFreq (freq : FrequencySpec) (prices benchmark : List ℚ) :
    Except MetricsError MetricsResult :=
  calculate_metrics (calculate_returns prices) (calculate_returns benchmark)

/-- Lines 72-74: the dict comprehension
`{symbol: calculate_metrics(returns[symbol], benchmark_returns) for symbol in stock_symbols}`,
evaluated left to right; an exception raised for any symbol propagates
and destroys the whole dict. -/
noncomputable def runAll :
    List (String × List ℚ) → List ℚ → Except MetricsError (List (String × MetricsResult))
  | [], _ => .ok []
  | (sym, ps) :: rest, benchmark =>
    match calculate_metrics (calculate_returns ps) (calculate_returns benchmark) with
    | .error e => .error e
    | .ok m =>
      match runAll rest benchmark with
      | .error e => .error e
      | .ok res => .ok ((sym, m) :: res)

/-- The spec's Max Drawdown algorithm (§4.4 item 5), cumulative products
of `1 + r`: `C[t] = Π(1 + returns[0..t])`. -/
def scanProd (acc : ℚ) : List ℚ → List ℚ
  | [] => []
  | x :: xs => (acc * x) :: scanProd (acc * x) xs

/-- Running maximum with seed `m`. -/
def runningMax (m : ℚ) : List ℚ → List ℚ
  | [] => []
  | x :: xs => max m x :: runningMax (max m x) xs

/-- The spec's cumulative-product series `C`. -/
def spec_cumulative (rs : List ℚ) : List ℚ :=
  scanProd 1 (rs.map (fun r => 1 + r))

/-- The spec's running peak `P[t] = max(C[0..t])`. -/
def spec_peaks : List ℚ → List ℚ
  | [] => []
  | c :: cs => c :: runningMax c cs

/-- The spec's drawdown series `D[t] = (C[t] - P[t]) / P[t]`. -/
def spec_drawdowns (rs : List ℚ) : List ℚ :=
  List.zipWith (fun c p => (c - p) / p) (spec_cumulative rs)
    (spec_peaks (spec_cumulative rs))

/-- The spec's Max Drawdown: `min(D)` over all `t`. -/
def spec_max_drawdown (rs : List ℚ) : Option ℚ :=
  listMinQ (spec_drawdowns rs)

/-! ### Basic bridging lemmas -/

lemma fvals_map_some (l : List ℚ) : fvals (l.map some) = l := by
  induction l with
  | nil => rfl
  | cons x xs ih => simp [fvals, ih]

lemma allFinite_map_some (l : List ℚ) : allFinite (l.map some) := by
  intro x hx
  simp only [List.mem_map] at hx
  obtain ⟨a, _, rfl⟩ := hx
  exact Option.some_ne_none a

lemma pctChangeAux_length (p : ℚ) (l : List ℚ) :
    (pctChangeAux p l).length = l.length := by
  induction l generalizing p with
  | nil => rfl
  | cons q rest ih => simp [pctChangeAux, ih]

lemma calculate_returns_length (prices : List ℚ) :
    (calculate_returns prices).length = prices.length := by
  cases prices with
  | nil => rfl
  | cons p rest => simp [calculate_returns, pctChangeAux_length]

lemma covF_map_some (xs ys : List ℚ) (h2 : 2 ≤ xs.length) :
    covF (xs.map some) (ys.map some) = some (covQ xs ys) := by
  rw [covF, if_pos, fvals_map_some, fvals_map_some]
  exact ⟨allFinite_map_some xs, allFinite_map_some ys, by simpa using h2⟩

lemma skipmean_map_some (l : List ℚ) (h : l ≠ []) :
    skipmean (l.map some) = some (meanQ l) := by
  rw [skipmean, fvals_map_some, if_neg h]

lemma calculate_metrics_ok (returns benchmark_returns : List FVal)
    (h : returns.length = benchmark_returns.length) :
    calculate_metrics returns benchmark_returns = .ok
      { Alpha := alpha returns benchmark_returns
        Volatility := annualized_volatility returns
        SharpeRatio := sharpe_ratio returns
        MaxDrawdown := max_drawdown returns
        RSquared := r_squared returns benchmark_returns
        DownsideDeviation := downside_deviation returns
        VaR95 := var_95 returns } := by
  rw [calculate_metrics, if_neg]
  omega

lemma calculate_metrics_err (returns benchmark_returns : List FVal)
    (h : returns.length ≠ benchmark_returns.length) :
    calculate_metrics returns benchmark_returns = .error .lengthMismatch := by
  rw [calculate_metrics, if_pos h]

lemma zipWith_centered_self (m : ℚ) (l : List ℚ) :
    List.zipWith (fun a b => (a - m) * (b - m)) l l =
      l.map (fun x => (x - m) * (x - m)) := by
  induction l with
  | nil => rfl
  | cons x xs ih => simp [ih]

lemma sum_centered_sq_nonneg (m : ℚ) (l : List ℚ) :
    0 ≤ (l.map (fun x => (x - m) * (x - m))).sum := by
  apply List.sum_nonneg
  intro q hq
  simp only [List.mem_map] at hq
  obtain ⟨a, _, rfl⟩ := hq
  exact mul_self_nonneg (a - m)

lemma covQ_self_nonneg (l : List ℚ) : 0 ≤ covQ l l := by
  match l with
  | [] => simp [covQ]
  | [a] => simp [covQ]
  | a :: b :: t =>
    rw [covQ, zipWith_centered_self]
    apply div_nonneg (sum_centered_sq_nonneg _ _)
    have h2 : 2 ≤ (a :: b :: t).length := by simp
    have : (2 : ℚ) ≤ ((a :: b :: t).length : ℚ) := by exact_mod_cast h2
    linarith

/-! ### Claim C1 -/

/-- C1: the claim says `calculate_returns` outputs one entry fewer than
the resampled price series, dropping the undefined leading return.  The
code's `pct_change()` keeps the leading entry as NaN: on the two-point
price series `[100, 110]` the output is `[NaN, 0.1]`, of length 2, not
length 1. -/
theorem C1_code_eval :
    calculate_returns [100, 110] = [none, some (1/10)] ∧
    (calculate_returns [100, 110]).length ≠ ([100, 110] : List ℚ).length - 1 := by
  constructor
  · show [none, some ((110 : ℚ) / 100 - 1)] = [none, some (1/10)]
    norm_num
  · decide

/-! ### Claim C10 -/

/-- C10: Volatility, Sharpe Ratio, Max Drawdown, Downside Deviation and
VaR(95%) are computed from the asset return series alone (lines 26-46),
so two calls with the same asset returns and different equal-length
benchmarks agree on all five fields. -/
theorem C10_benchmark_independence (rs b1 b2 : List FVal)
    (h1 : b1.length = rs.length) (h2 : b2.length = rs.length) :
    ∃ m1 m2, calculate_metrics rs b1 = .ok m1 ∧ calculate_metrics rs b2 = .ok m2 ∧
      m1.Volatility = m2.Volatility ∧ m1.SharpeRatio = m2.SharpeRatio ∧
      m1.MaxDrawdown = m2.MaxDrawdown ∧
      m1.DownsideDeviation = m2.DownsideDeviation ∧ m1.VaR95 = m2.VaR95 :=
  ⟨_, _, calculate_metrics_ok rs b1 h1.symm, calculate_metrics_ok rs b2 h2.symm,
    rfl, rfl, rfl, rfl, rfl⟩

/-- Witness for C10 at concrete inputs. -/
theorem C10_witness :
    ([some 0, some 0] : List FVal).length = ([some (1/10), some (-1/10)] : List FVal).length ∧
    ([some (1/100), some (2/100)] : List FVal).length =
      ([some (1/10), some (-1/10)] : List FVal).length ∧
    ∃ m1 m2,
      calculate_metrics [some (1/10), some (-1/10)] [some 0, some 0] = .ok m1 ∧
      calculate_metrics [some (1/10), some (-1/10)] [some (1/100), some (2/100)] = .ok m2 ∧
      m1.Volatility = m2.Volatility ∧ m1.SharpeRatio = m2.SharpeRatio ∧
      m1.MaxDrawdown = m2.MaxDrawdown ∧
      m1.DownsideDeviation = m2.DownsideDeviation ∧ m1.VaR95 = m2.VaR95 :=
  ⟨rfl, rfl, C10_benchmark_independence _ _ _ rfl rfl⟩

/-! ### Claim C2 -/

/-- C2 as amended: the dict comprehensions have no failure handling, so
the only raising failure, the `ValueError` from `np.cov` on mismatched
lengths, aborts the entire run (no pair gets a result); a run in which
every pair's prices match the benchmark's length completes with one
entry per symbol, in order.  (The benchmark is kept nonempty because
`np.percentile` raises on an empty series.) -/
theorem C2_amended (stocks : List (String × List ℚ)) (benchmark : List ℚ)
    (hb : benchmark ≠ []) :
    ((∀ sp ∈ stocks, (sp.2).length = benchmark.length) →
      ∃ res, runAll stocks benchmark = .ok res ∧
        res.map Prod.fst = stocks.map Prod.fst) ∧
    ((∃ sp ∈ stocks, (sp.2).length ≠ benchmark.length) →
      runAll stocks benchmark = .error .lengthMismatch) := by
  clear hb
  induction stocks with
  | nil =>
    exact ⟨fun _ => ⟨[], rfl, rfl⟩, fun ⟨sp, h, _⟩ => absurd h (List.not_mem_nil sp)⟩
  | cons hd rest ih =>
    obtain ⟨sym, ps⟩ := hd
    constructor
    · intro hall
      have hlen : ps.length = benchmark.length := hall (sym, ps) (by simp)
      have hok := calculate_metrics_ok (calculate_returns ps) (calculate_returns benchmark)
        (by rw [calculate_returns_length, calculate_returns_length]; exact hlen)
      obtain ⟨res, hres, hfst⟩ := ih.1 (fun sp hsp => hall sp (List.mem_cons_of_mem _ hsp))
      obtain ⟨m, hm⟩ : ∃ m, calculate_metrics (calculate_returns ps)
          (calculate_returns benchmark) = .ok m := ⟨_, hok⟩
      refine ⟨(sym, m) :: res, ?_, ?_⟩
      · rw [runAll, hm, hres]
      · simp [hfst]
    · rintro ⟨sp, hsp, hne⟩
      rcases List.mem_cons.mp hsp with heq | hmem
      · subst heq
        have herr := calculate_metrics_err (calculate_returns ps) (calculate_returns benchmark)
          (by rw [calculate_returns_length, calculate_returns_length]; exact hne)
        rw [runAll, herr]
      · by_cases hhd : ps.length = benchmark.length
        · have hok := calculate_metrics_ok (calculate_returns ps) (calculate_returns benchmark)
            (by rw [calculate_returns_length, calculate_returns_length]; exact hhd)
          have hrest := ih.2 ⟨sp, hmem, hne⟩
          rw [runAll, hok, hrest]
        · have herr := calculate_metrics_err (calculate_returns ps) (calculate_returns benchmark)
            (by rw [calculate_returns_length, calculate_returns_length]; exact hhd)
          rw [runAll, herr]

/-- Witness for C2 at concrete inputs. -/
theorem C2_witness :
    (([1, 2] : List ℚ) ≠ []) ∧
    (((∀ sp ∈ ([("A", [1, 2]), ("B", [1, 2, 3])] : List (String × List ℚ)),
        (sp.2).length = ([1, 2] : List ℚ).length) →
      ∃ res, runAll [("A", [1, 2]), ("B", [1, 2, 3])] [1, 2] = .ok res ∧
        res.map Prod.fst =
          ([("A", [1, 2]), ("B", [1, 2, 3])] : List (String × List ℚ)).map Prod.fst) ∧
    ((∃ sp ∈ ([("A", [1, 2]), ("B", [1, 2, 3])] : List (String × List ℚ)),
        (sp.2).length ≠ ([1, 2] : List ℚ).length) →
      runAll [("A", [1, 2]), ("B", [1, 2, 3])] [1, 2] = .error .lengthMismatch)) :=
  ⟨by simp, C2_amended _ _ (by simp)⟩

/-- Counterexample to C2 as stated: in a run where the pair "B" has a
length mismatch against the benchmark, the whole run aborts with the
raised error; pair "A" — whose own computation succeeds in isolation —
gets no result at all, contradicting per-pair failure isolation. -/
theorem C2_cex :
    runAll [("A", [1, 2]), ("B", [1, 2, 3])] [1, 2] = .error .lengthMismatch ∧
    ∃ mA, calculate_metrics (calculate_returns [1, 2]) (calculate_returns [1, 2]) = .ok mA := by
  constructor
  · have hok := calculate_metrics_ok (calculate_returns [(1 : ℚ), 2])
      (calculate_returns [1, 2]) rfl
    have herr := calculate_metrics_err (calculate_returns [(1 : ℚ), 2, 3])
      (calculate_returns [1, 2]) (by decide)
    rw [runAll, hok, runAll, herr]
  · exact ⟨_, calculate_metrics_ok _ _ rfl⟩

/-! ### Claim C3 -/

/-- C3 as amended: a zero-variance benchmark does not raise — float
division by zero silently yields a non-finite beta (and the call still
returns a numeric record); with nonzero benchmark variance, beta is
Cov(returns, benchmarkReturns) / Var(benchmarkReturns). -/
theorem C3_amended (rs bs : List ℚ) (hlen : rs.length = bs.length)
    (h2 : 2 ≤ bs.length) :
    (covQ bs bs = 0 →
      beta (rs.map some) (bs.map some) = none ∧
      ∃ m, calculate_metrics (rs.map some) (bs.map some) = .ok m) ∧
    (covQ bs bs ≠ 0 →
      beta (rs.map some) (bs.map some) = some (covQ rs bs / covQ bs bs)) := by
  have h2r : 2 ≤ rs.length := hlen ▸ h2
  have hc1 := covF_map_some rs bs h2r
  have hc2 := covF_map_some bs bs h2
  constructor
  · intro hv
    refine ⟨?_, ?_⟩
    · rw [beta, hc1, hc2, hv, fdiv, if_pos rfl]
    · exact ⟨_, calculate_metrics_ok _ _ (by simp [hlen])⟩
  · intro hv
    rw [beta, hc1, hc2, fdiv, if_neg hv]

/-- Witness for C3 at concrete inputs (constant benchmark). -/
theorem C3_witness :
    (([1/10, -1/10] : List ℚ).length = ([0, 0] : List ℚ).length) ∧
    (2 ≤ ([0, 0] : List ℚ).length) ∧
    ((covQ [0, 0] [0, 0] = 0 →
      beta (([1/10, -1/10] : List ℚ).map some) (([0, 0] : List ℚ).map some) = none ∧
      ∃ m, calculate_metrics (([1/10, -1/10] : List ℚ).map some)
          (([0, 0] : List ℚ).map some) = .ok m) ∧
    (covQ [0, 0] [0, 0] ≠ 0 →
      beta (([1/10, -1/10] : List ℚ).map some) (([0, 0] : List ℚ).map some) =
        some (covQ [1/10, -1/10] [0, 0] / covQ [0, 0] [0, 0]))) :=
  ⟨rfl, by simp, C3_amended _ _ rfl (by simp)⟩

/-- Counterexample to C3 as stated: with the constant benchmark `[0, 0]`
(zero variance) the code does not fail with `DegenerateVariance`; it
returns a numeric record (whose beta-derived Alpha is the propagated
non-finite value). -/
theorem C3_cex :
    calculate_metrics [some (1/10), some (-1/10)] [some 0, some 0] ≠
      Except.error MetricsError.degenerateVariance ∧
    ∃ m, calculate_metrics [some (1/10), some (-1/10)] [some 0, some 0] = .ok m ∧
      m.Alpha = none := by
  have hok := calculate_metrics_ok [some ((1 : ℚ)/10), some (-1/10)] [some 0, some 0] rfl
  have hbb : covF [some ((1 : ℚ)/10), some (-1/10)] [some 0, some 0] = some 0 := by
    rw [covF, if_pos ⟨by decide, by decide, by decide⟩]
    have : fvals [some ((1 : ℚ)/10), some (-1/10)] = [1/10, -1/10] := by simp [fvals]
    have h0 : fvals [some (0 : ℚ), some 0] = [0, 0] := by simp [fvals]
    rw [this, h0]
    norm_num [covQ, meanQ]
  have hbeta : beta [some ((1 : ℚ)/10), some (-1/10)] [some 0, some 0] = none := by
    have hvv : covF [some ((0 : ℚ)), some 0] [some 0, some 0] = some 0 := by
      rw [covF, if_pos ⟨by decide, by decide, by decide⟩]
      have h0 : fvals [some (0 : ℚ), some 0] = [0, 0] := by simp [fvals]
      rw [h0]
      norm_num [covQ, meanQ]
    rw [beta, hvv, hbb, fdiv, if_pos rfl]
  have halpha : alpha [some ((1 : ℚ)/10), some (-1/10)] [some 0, some 0] = none := by
    rw [alpha, hbeta]
    cases skipmean [some ((1 : ℚ)/10), some (-1/10)] <;> rfl
  exact ⟨by rw [hok]; exact fun h => Except.noConfusion h, _, hok, halpha⟩

/-! ### Claim C7 -/

/-- C7: feeding the same return series as asset and benchmark (nonzero
variance) gives Beta = 1, Alpha = 0 and R-Squared = 1. -/
theorem C7_self_benchmark (rs : List ℚ) (h2 : 2 ≤ rs.length)
    (hv : covQ rs rs ≠ 0) :
    beta (rs.map some) (rs.map some) = some 1 ∧
    ∃ m, calculate_metrics (rs.map some) (rs.map some) = .ok m ∧
      m.Alpha = some 0 ∧ m.RSquared = some 1 := by
  have hc := covF_map_some rs rs h2
  have hne : rs ≠ [] := by intro h; rw [h] at h2; simp at h2
  have hbeta : beta (rs.map some) (rs.map some) = some 1 := by
    rw [beta, hc, fdiv, if_neg hv, div_self hv]
  have hpos : 0 < covQ rs rs := lt_of_le_of_ne (covQ_self_nonneg rs) (Ne.symm hv)
  have halpha : alpha (rs.map some) (rs.map some) = some 0 := by
    rw [alpha, hbeta, skipmean_map_some rs hne, fmul, fsub]
    simp
  have hr2 : r_squared (rs.map some) (rs.map some) = some 1 := by
    have hsq : Real.sqrt (covQ rs rs : ℝ) * Real.sqrt (covQ rs rs : ℝ) = (covQ rs rs : ℝ) :=
      Real.mul_self_sqrt (by exact_mod_cast hpos.le)
    have hvv : (covQ rs rs : ℝ) ≠ 0 := by exact_mod_cast hv
    rw [r_squared, corrcoefR, hc]
    simp only [hsq, if_neg hvv, div_self hvv]
    norm_num
  exact ⟨hbeta, _, calculate_metrics_ok _ _ rfl, halpha, hr2⟩

/-- Witness for C7 at a concrete series. -/
theorem C7_witness :
    (2 ≤ ([1/10, -1/10] : List ℚ).length) ∧
    (covQ [1/10, -1/10] [1/10, -1/10] ≠ 0) ∧
    (beta (([1/10, -1/10] : List ℚ).map some) (([1/10, -1/10] : List ℚ).map some) = some 1 ∧
    ∃ m, calculate_metrics (([1/10, -1/10] : List ℚ).map some)
        (([1/10, -1/10] : List ℚ).map some) = .ok m ∧
      m.Alpha = some 0 ∧ m.RSquared = some 1) := by
  have hcv : covQ [(1 : ℚ)/10, -1/10] [1/10, -1/10] ≠ 0 := by
    norm_num [covQ, meanQ]
  exact ⟨by decide, hcv, C7_self_benchmark _ (by decide) hcv⟩

/-! ### Claim C4 -/

/-- C4 as amended: the metric computation is literally the same function
for every frequency (lines 72-74 all call `calculate_metrics`, which
takes no frequency argument), and the Volatility field is always
stddev(returns) × sqrt(252) — the constant 252 of line 27, not a factor
carried by the frequency. -/
theorem C4_amended (freq : FrequencySpec) (prices benchmark : List ℚ)
    (hlen : prices.length = benchmark.length) :
    metricsAtFreq freq prices benchmark = metricsAtFreq .daily prices benchmark ∧
    ∃ m, metricsAtFreq freq prices benchmark = .ok m ∧
      m.Volatility = (stdR (calculate_returns prices)).map (fun s => s * Real.sqrt 252) := by
  have hok : metricsAtFreq freq prices benchmark = .ok
      { Alpha := alpha (calculate_returns prices) (calculate_returns benchmark)
        Volatility := annualized_volatility (calculate_returns prices)
        SharpeRatio := sharpe_ratio (calculate_returns prices)
        MaxDrawdown := max_drawdown (calculate_returns prices)
        RSquared := r_squared (calculate_returns prices) (calculate_returns benchmark)
        DownsideDeviation := downside_deviation (calculate_returns prices)
        VaR95 := var_95 (calculate_returns prices) } := by
    rw [metricsAtFreq]
    exact calculate_metrics_ok _ _
      (by rw [calculate_returns_length, calculate_returns_length]; exact hlen)
  exact ⟨rfl, _, hok, rfl⟩

/-- Witness for C4 at concrete inputs (monthly frequency). -/
theorem C4_witness :
    (([100, 110, 99] : List ℚ).length = ([100, 110, 99] : List ℚ).length) ∧
    (metricsAtFreq .monthly [100, 110, 99] [100, 110, 99] =
      metricsAtFreq .daily [100, 110, 99] [100, 110, 99] ∧
    ∃ m, metricsAtFreq .monthly [100, 110, 99] [100, 110, 99] = .ok m ∧
      m.Volatility = (stdR (calculate_returns [100, 110, 99])).map
        (fun s => s * Real.sqrt 252)) :=
  ⟨rfl, C4_amended .monthly _ _ rfl⟩

/-- Counterexample to C4 as stated: at monthly frequency the code's
Volatility uses sqrt(252), while the spec's FrequencySpec carries the
monthly annualization factor 12; with returns `[0.1, -0.1]` (variance
1/50) the two values differ. -/
theorem C4_cex :
    (∃ m, metricsAtFreq .monthly [100, 110, 99] [100, 110, 99] = .ok m ∧
      m.Volatility = some (Real.sqrt (1/50) * Real.sqrt 252)) ∧
    annualizationFactor .monthly = some 12 ∧
    Real.sqrt ((1 : ℝ)/50) * Real.sqrt 252 ≠ Real.sqrt (1/50) * Real.sqrt 12 := by
  have hret : calculate_returns [100, 110, 99] = [none, some (1/10), some (-1/10)] := by
    show [none, some ((110 : ℚ) / 100 - 1), some ((99 : ℚ) / 110 - 1)] = _
    norm_num
  have hvol : annualized_volatility (calculate_returns [100, 110, 99]) =
      some (Real.sqrt (1/50) * Real.sqrt 252) := by
    have hv : skipvar (calculate_returns [100, 110, 99]) = some (1/50) := by
      rw [hret]
      have hfv : fvals [none, some ((1 : ℚ)/10), some (-1/10)] = [1/10, -1/10] := by
        simp [fvals]
      rw [skipvar, hfv]
      norm_num [svarQ, meanQ]
    rw [annualized_volatility, stdR, hv]
    norm_num
  have hok : metricsAtFreq .monthly [100, 110, 99] [100, 110, 99] = .ok
      { Alpha := alpha (calculate_returns [100, 110, 99]) (calculate_returns [100, 110, 99])
        Volatility := annualized_volatility (calculate_returns [100, 110, 99])
        SharpeRatio := sharpe_ratio (calculate_returns [100, 110, 99])
        MaxDrawdown := max_drawdown (calculate_returns [100, 110, 99])
        RSquared := r_squared (calculate_returns [100, 110, 99]) (calculate_returns [100, 110, 99])
        DownsideDeviation := downside_deviation (calculate_returns [100, 110, 99])
        VaR95 := var_95 (calculate_returns [100, 110, 99]) } :=
    calculate_metrics_ok _ _ rfl
  refine ⟨⟨_, hok, hvol⟩, rfl, ?_⟩
  intro h
  have hne : Real.sqrt ((1 : ℝ)/50) ≠ 0 :=
    ne_of_gt (Real.sqrt_pos.mpr (by norm_num))
  have h2 : Real.sqrt (252 : ℝ) = Real.sqrt 12 := mul_left_cancel₀ hne h
  have := (Real.sqrt_inj (by norm_num) (by norm_num)).mp h2
  norm_num at this

/-! ### Max-drawdown bridge: skip-NaN pandas operations on an all-finite
series agree with the spec's plain algorithm -/

lemma cumprodSkip_map_some (a : ℚ) (l : List ℚ) :
    cumprodSkip a (l.map some) = (scanProd a l).map some := by
  induction l generalizing a with
  | nil => rfl
  | cons x xs ih => simp [cumprodSkip, scanProd, ih]

lemma cummaxSkip_some_map (m : ℚ) (l : List ℚ) :
    cummaxSkip (some m) (l.map some) = (runningMax m l).map some := by
  induction l generalizing m with
  | nil => rfl
  | cons x xs ih => simp [cummaxSkip, runningMax, ih]

lemma cummaxSkip_none_map (l : List ℚ) :
    cummaxSkip none (l.map some) = (spec_peaks l).map some := by
  cases l with
  | nil => rfl
  | cons c cs => simp [cummaxSkip, spec_peaks, cummaxSkip_some_map]

lemma zipWith_dd_map (C P : List ℚ) (hP : ∀ p ∈ P, p ≠ 0) :
    List.zipWith (fun c p => fdiv (fsub c p) p) (C.map some) (P.map some) =
      (List.zipWith (fun c p => (c - p) / p) C P).map some := by
  induction C generalizing P with
  | nil => simp
  | cons c cs ih =>
    cases P with
    | nil => simp
    | cons p ps =>
      have hp : p ≠ 0 := hP p (by simp)
      simp only [List.map_cons, List.zipWith_cons_cons]
      congr 1
      · rw [fsub, fdiv, if_neg hp]
      · exact ih ps (fun q hq => hP q (by simp [hq]))

lemma minSkip_map_some (l : List ℚ) : minSkip (l.map some) = listMinQ l := by
  rw [minSkip, fvals_map_some]

lemma map_fadd_one (rs : List ℚ) :
    (rs.map some).map (fun x => fadd (some 1) x) = (rs.map (fun r => 1 + r)).map some := by
  induction rs with
  | nil => rfl
  | cons r t ih => simp only [List.map_cons, fadd] at ih ⊢; rw [ih]

lemma scanProd_pos (l : List ℚ) : ∀ a : ℚ, 0 < a → (∀ x ∈ l, 0 < x) →
    ∀ y ∈ scanProd a l, 0 < y := by
  induction l with
  | nil => intro a _ _ y hy; simp [scanProd] at hy
  | cons x xs ih =>
    intro a ha hl y hy
    rw [scanProd] at hy
    rcases List.mem_cons.mp hy with rfl | hy2
    · exact mul_pos ha (hl x (by simp))
    · exact ih (a * x) (mul_pos ha (hl x (by simp))) (fun z hz => hl z (by simp [hz])) y hy2

lemma runningMax_pos (l : List ℚ) : ∀ m : ℚ, 0 < m → (∀ x ∈ l, 0 < x) →
    ∀ y ∈ runningMax m l, 0 < y := by
  induction l with
  | nil => intro m _ _ y hy; simp [runningMax] at hy
  | cons x xs ih =>
    intro m hm hl y hy
    rw [runningMax] at hy
    rcases List.mem_cons.mp hy with rfl | hy2
    · exact lt_max_iff.mpr (Or.inl hm)
    · exact ih (max m x) (lt_max_iff.mpr (Or.inl hm)) (fun z hz => hl z (by simp [hz])) y hy2

lemma spec_cumulative_pos (rs : List ℚ) (h : ∀ r ∈ rs, -1 < r) :
    ∀ c ∈ spec_cumulative rs, 0 < c := by
  apply scanProd_pos _ 1 one_pos
  intro x hx
  simp only [List.mem_map] at hx
  obtain ⟨r, hr, rfl⟩ := hx
  linarith [h r hr]

lemma spec_peaks_pos (C : List ℚ) (hC : ∀ c ∈ C, 0 < c) :
    ∀ p ∈ spec_peaks C, 0 < p := by
  cases C with
  | nil => intro p hp; simp [spec_peaks] at hp
  | cons c cs =>
    intro p hp
    rw [spec_peaks] at hp
    rcases List.mem_cons.mp hp with rfl | hp2
    · exact hC p (by simp)
    · exact runningMax_pos cs c (hC c (by simp)) (fun z hz => hC z (by simp [hz])) p hp2

lemma mdd_bridge (rs : List ℚ) (h : ∀ r ∈ rs, -1 < r) :
    max_drawdown (rs.map some) = spec_max_drawdown rs := by
  have hP : ∀ p ∈ spec_peaks (spec_cumulative rs), p ≠ 0 :=
    fun p hp => (spec_peaks_pos _ (spec_cumulative_pos rs h) p hp).ne'
  simp only [max_drawdown, spec_max_drawdown, spec_drawdowns, spec_cumulative]
  rw [map_fadd_one, cumprodSkip_map_some, cummaxSkip_none_map,
    zipWith_dd_map _ _ (by simpa [spec_cumulative] using hP), minSkip_map_some]

lemma dd_bounds_aux (C : List ℚ) : ∀ m : ℚ, 0 < m → (∀ c ∈ C, 0 < c) →
    ∀ y ∈ List.zipWith (fun c p => (c - p) / p) C (runningMax m C), -1 < y ∧ y ≤ 0 := by
  induction C with
  | nil => intro m _ _ y hy; simp at hy
  | cons c cs ih =>
    intro m hm hC y hy
    rw [runningMax] at hy
    simp only [List.zipWith_cons_cons] at hy
    rcases List.mem_cons.mp hy with rfl | hy2
    · have hc : 0 < c := hC c (by simp)
      have hp : 0 < max m c := lt_max_iff.mpr (Or.inl hm)
      constructor
      · rw [lt_div_iff hp]; linarith
      · rw [div_nonpos_iff]
        exact Or.inr ⟨sub_nonpos.mpr (le_max_right m c), hp.le⟩
    · exact ih (max m c) (lt_max_iff.mpr (Or.inl hm)) (fun z hz => hC z (by simp [hz])) y hy2

lemma dd_bounds (rs : List ℚ) (h : ∀ r ∈ rs, -1 < r) :
    ∀ y ∈ spec_drawdowns rs, -1 < y ∧ y ≤ 0 := by
  have hC := spec_cumulative_pos rs h
  rw [spec_drawdowns]
  cases hCc : spec_cumulative rs with
  | nil => simp
  | cons c cs =>
    rw [spec_peaks]
    simp only [List.zipWith_cons_cons]
    intro y hy
    rcases List.mem_cons.mp hy with rfl | hy2
    · constructor <;> simp
    · exact dd_bounds_aux cs c (hC c (by rw [hCc]; simp))
        (fun z hz => hC z (by rw [hCc]; simp [hz])) y hy2

lemma foldl_min_mem (xs : List ℚ) : ∀ x : ℚ, xs.foldl min x = x ∨ xs.foldl min x ∈ xs := by
  induction xs with
  | nil => intro x; left; rfl
  | cons y ys ih =>
    intro x
    rw [List.foldl_cons]
    rcases ih (min x y) with h | h
    · rw [h]
      rcases min_choice x y with h2 | h2
      · left; exact h2
      · right; rw [h2]; simp
    · right; exact List.mem_cons_of_mem y h

lemma listMinQ_mem (l : List ℚ) (hne : l ≠ []) : ∃ v, listMinQ l = some v ∧ v ∈ l := by
  cases l with
  | nil => exact absurd rfl hne
  | cons x xs =>
    refine ⟨xs.foldl min x, rfl, ?_⟩
    rcases foldl_min_mem xs x with h | h
    · rw [h]; simp
    · exact List.mem_cons_of_mem x h

lemma scanProd_length (l : List ℚ) : ∀ a : ℚ, (scanProd a l).length = l.length := by
  induction l with
  | nil => intro a; rfl
  | cons x xs ih => intro a; simp [scanProd, ih]

lemma runningMax_length (l : List ℚ) : ∀ m : ℚ, (runningMax m l).length = l.length := by
  induction l with
  | nil => intro m; rfl
  | cons x xs ih => intro m; simp [runningMax, ih]

lemma spec_peaks_length (C : List ℚ) : (spec_peaks C).length = C.length := by
  cases C with
  | nil => rfl
  | cons c cs => simp [spec_peaks, runningMax_length]

lemma spec_drawdowns_length (rs : List ℚ) : (spec_drawdowns rs).length = rs.length := by
  rw [spec_drawdowns, List.length_zipWith, spec_peaks_length, min_self,
    spec_cumulative, scanProd_length, List.length_map]

/-! ### Claim C5 -/

/-- C5: the Max Drawdown field computed by lines 33-36 (skip-NaN pandas
cumprod/cummax/elementwise division/min) equals the spec's algorithm
`C[t] = Π(1 + r[0..t])`, `P[t] = max(C[0..t])`, `D = (C - P)/P`,
`min(D)` — for any return series whose entries exceed -1 (returns
derived from positive prices, §3's price invariant, which keeps every
peak nonzero so the division is defined). -/
theorem C5_max_drawdown_algorithm (rs : List ℚ) (h : ∀ r ∈ rs, -1 < r) :
    max_drawdown (rs.map some) = spec_max_drawdown rs :=
  mdd_bridge rs h

/-- Witness for C5 at a concrete series. -/
theorem C5_witness :
    (∀ r ∈ ([1/10, 1/10, -1/10] : List ℚ), -1 < r) ∧
    max_drawdown (([1/10, 1/10, -1/10] : List ℚ).map some) =
      spec_max_drawdown [1/10, 1/10, -1/10] := by
  have hr : ∀ r ∈ ([1/10, 1/10, -1/10] : List ℚ), -1 < r := by
    intro r hr
    simp only [List.mem_cons, List.not_mem_nil, or_false] at hr
    rcases hr with rfl | rfl | rfl <;> norm_num
  exact ⟨hr, C5_max_drawdown_algorithm _ hr⟩

/-! ### Cauchy-Schwarz for list sums, and claim C6 -/

lemma cs_step (x y S A B : ℚ) (hA : 0 ≤ A) (hB : 0 ≤ B) (hS : S ^ 2 ≤ A * B) :
    (x * y + S) ^ 2 ≤ (x * x + A) * (y * y + B) := by
  rcases hB.eq_or_lt with hB0 | hBpos
  · have hS2 : S ^ 2 ≤ 0 := by rw [← hB0, mul_zero] at hS; exact hS
    have hS0 : S = 0 := (pow_eq_zero_iff two_ne_zero).mp (le_antisymm hS2 (sq_nonneg S))
    subst hS0
    rw [← hB0]
    nlinarith [mul_nonneg hA (mul_self_nonneg y)]
  · nlinarith [sq_nonneg (x * B - y * S),
      mul_nonneg (sub_nonneg.mpr hS) (mul_self_nonneg y),
      mul_nonneg (sub_nonneg.mpr hS) hB]

lemma zipWith_mul_self (l : List ℚ) :
    List.zipWith (· * ·) l l = l.map (fun x => x * x) := by
  induction l with
  | nil => rfl
  | cons x xs ih => simp [ih]

lemma sum_zip_self_nonneg (l : List ℚ) : 0 ≤ (List.zipWith (· * ·) l l).sum := by
  rw [zipWith_mul_self]
  apply List.sum_nonneg
  intro q hq
  simp only [List.mem_map] at hq
  obtain ⟨a, _, rfl⟩ := hq
  exact mul_self_nonneg a

lemma list_cs (xs : List ℚ) : ∀ ys : List ℚ,
    ((List.zipWith (· * ·) xs ys).sum) ^ 2 ≤
      ((List.zipWith (· * ·) xs xs).sum) * ((List.zipWith (· * ·) ys ys).sum) := by
  induction xs with
  | nil => intro ys; simp
  | cons x xt ih =>
    intro ys
    cases ys with
    | nil => simp
    | cons y yt =>
      simp only [List.zipWith_cons_cons, List.sum_cons]
      exact cs_step x y _ _ _ (sum_zip_self_nonneg xt) (sum_zip_self_nonneg yt) (ih yt)

lemma covQ_as_zip (xs ys : List ℚ) :
    covQ xs ys = ((List.zipWith (· * ·) (xs.map (fun a => a - meanQ xs))
      (ys.map (fun b => b - meanQ ys))).sum) / ((xs.length : ℚ) - 1) := by
  rw [covQ, List.zipWith_map]

lemma covQ_sq_le (xs ys : List ℚ) (hlen : xs.length = ys.length) :
    (covQ xs ys) ^ 2 ≤ covQ xs xs * covQ ys ys := by
  rw [covQ_as_zip xs ys, covQ_as_zip xs xs, covQ_as_zip ys ys, hlen, div_pow,
    div_mul_div_comm, ← pow_two]
  rcases eq_or_ne ((ys.length : ℚ) - 1) 0 with ht | ht
  · rw [ht]
    simp
  · have ht2 : 0 < ((ys.length : ℚ) - 1) ^ 2 :=
      (sq_nonneg _).lt_of_ne (Ne.symm (pow_ne_zero 2 ht))
    exact (div_le_div_right ht2).mpr (list_cs _ _)

/-- C6 as amended: with returns above -1 (positive prices), the Max
Drawdown field is `some d` with `-1 ≤ d ≤ 0`; the R-Squared field is a
value in `[0, 1]` whenever it is defined, that is, when both series have
at least 2 points and both sample variances are nonzero (otherwise the
float correlation is NaN, not a number in `[0, 1]`). -/
theorem C6_amended (rs bs : List ℚ) (hne : rs ≠ []) (hgt : ∀ r ∈ rs, -1 < r)
    (hlen : rs.length = bs.length) :
    ∃ m, calculate_metrics (rs.map some) (bs.map some) = .ok m ∧
      (∃ d, m.MaxDrawdown = some d ∧ -1 ≤ d ∧ d ≤ 0) ∧
      (2 ≤ rs.length → covQ rs rs ≠ 0 → covQ bs bs ≠ 0 →
        ∃ v, m.RSquared = some v ∧ 0 ≤ v ∧ v ≤ 1) := by
  have hmdd : ∃ d, max_drawdown (rs.map some) = some d ∧ -1 ≤ d ∧ d ≤ 0 := by
    rw [mdd_bridge rs hgt, spec_max_drawdown]
    have hddlen : spec_drawdowns rs ≠ [] := by
      intro hnil
      have hl := spec_drawdowns_length rs
      rw [hnil] at hl
      exact hne (List.length_eq_zero.mp hl.symm)
    obtain ⟨v, hv, hmem⟩ := listMinQ_mem _ hddlen
    obtain ⟨hb1, hb2⟩ := dd_bounds rs hgt v hmem
    exact ⟨v, hv, hb1.le, hb2⟩
  have hr2 : 2 ≤ rs.length → covQ rs rs ≠ 0 → covQ bs bs ≠ 0 →
      ∃ v, r_squared (rs.map some) (bs.map some) = some v ∧ 0 ≤ v ∧ v ≤ 1 := by
    intro h2 hvx hvy
    have h2b : 2 ≤ bs.length := hlen ▸ h2
    have hcxy := covF_map_some rs bs h2
    have hcxx := covF_map_some rs rs h2
    have hcyy := covF_map_some bs bs h2b
    have hvxpos : 0 < covQ rs rs := lt_of_le_of_ne (covQ_self_nonneg rs) (Ne.symm hvx)
    have hvypos : 0 < covQ bs bs := lt_of_le_of_ne (covQ_self_nonneg bs) (Ne.symm hvy)
    have hsx : (0 : ℝ) < Real.sqrt ((covQ rs rs : ℚ) : ℝ) :=
      Real.sqrt_pos.mpr (by exact_mod_cast hvxpos)
    have hsy : (0 : ℝ) < Real.sqrt ((covQ bs bs : ℚ) : ℝ) :=
      Real.sqrt_pos.mpr (by exact_mod_cast hvypos)
    have hden : Real.sqrt ((covQ rs rs : ℚ) : ℝ) * Real.sqrt ((covQ bs bs : ℚ) : ℝ) ≠ 0 :=
      (mul_pos hsx hsy).ne'
    rw [r_squared, corrcoefR, hcxy, hcxx, hcyy]
    simp only [if_neg hden, Option.map_some']
    refine ⟨_, rfl, sq_nonneg _, ?_⟩
    rw [div_pow, mul_pow, Real.sq_sqrt (by exact_mod_cast hvxpos.le),
      Real.sq_sqrt (by exact_mod_cast hvypos.le),
      div_le_one (by exact_mod_cast mul_pos hvxpos hvypos)]
    exact_mod_cast covQ_sq_le rs bs hlen
  exact ⟨_, calculate_metrics_ok _ _ (by simp [hlen]), hmdd, hr2⟩

/-- Witness for C6 at concrete inputs. -/
theorem C6_witness :
    (([1/10, -1/10] : List ℚ) ≠ []) ∧ (∀ r ∈ ([1/10, -1/10] : List ℚ), -1 < r) ∧
    (([1/10, -1/10] : List ℚ).length = ([2/10, 1/10] : List ℚ).length) ∧
    ∃ m, calculate_metrics (([1/10, -1/10] : List ℚ).map some)
        (([2/10, 1/10] : List ℚ).map some) = .ok m ∧
      (∃ d, m.MaxDrawdown = some d ∧ -1 ≤ d ∧ d ≤ 0) ∧
      (2 ≤ ([1/10, -1/10] : List ℚ).length → covQ [1/10, -1/10] [1/10, -1/10] ≠ 0 →
        covQ [2/10, 1/10] [2/10, 1/10] ≠ 0 →
        ∃ v, m.RSquared = some v ∧ 0 ≤ v ∧ v ≤ 1) := by
  have hgt : ∀ r ∈ ([1/10, -1/10] : List ℚ), -1 < r := by
    intro r hr
    simp only [List.mem_cons, List.not_mem_nil, or_false] at hr
    rcases hr with rfl | rfl <;> norm_num
  exact ⟨by simp, hgt, rfl, C6_amended _ _ (by simp) hgt rfl⟩

/-- Counterexample to C6 as stated: both series come from positive
prices (returns `[0.1, -0.1]` and a constant benchmark with returns
`[0, 0]`), yet the R-Squared field is NaN (the float correlation against
a zero-variance benchmark), not a number in `[0, 1]`. -/
theorem C6_cex :
    ∃ m, calculate_metrics [some (1/10), some (-1/10)] [some 0, some 0] = .ok m ∧
      m.RSquared = none := by
  refine ⟨_, calculate_metrics_ok _ _ rfl, ?_⟩
  show r_squared [some ((1 : ℚ)/10), some (-1/10)] [some 0, some 0] = none
  have hf1 : fvals [some ((1 : ℚ)/10), some (-1/10)] = [1/10, -1/10] := by simp [fvals]
  have hf0 : fvals [some (0 : ℚ), some 0] = [0, 0] := by simp [fvals]
  have hcyy : covF [some (0 : ℚ), some 0] [some 0, some 0] = some 0 := by
    rw [covF, if_pos ⟨by decide, by decide, by decide⟩, hf0]
    norm_num [covQ, meanQ]
  have hcxy : covF [some ((1 : ℚ)/10), some (-1/10)] [some 0, some 0] =
      some (covQ [1/10, -1/10] [0, 0]) := by
    rw [covF, if_pos ⟨by decide, by decide, by decide⟩, hf1, hf0]
  have hcxx : covF [some ((1 : ℚ)/10), some (-1/10)] [some (1/10), some (-1/10)] =
      some (covQ [1/10, -1/10] [1/10, -1/10]) := by
    rw [covF, if_pos ⟨by decide, by decide, by decide⟩, hf1]
  rw [r_squared, corrcoefR, hcxy, hcxx, hcyy]
  simp

/-! ### Constant price series: claim C8 -/

lemma pct_replicate (p : ℚ) (hp : p ≠ 0) (k : ℕ) :
    pctChangeAux p (List.replicate k p) = List.replicate k (some 0) := by
  induction k with
  | zero => rfl
  | succ j ih => simp [List.replicate_succ, pctChangeAux, div_self hp, ih]

lemma calc_returns_replicate (n : ℕ) (p : ℚ) (hn : 1 ≤ n) (hp : p ≠ 0) :
    calculate_returns (List.replicate n p) = none :: List.replicate (n - 1) (some 0) := by
  obtain ⟨k, rfl⟩ : ∃ k, n = k + 1 := ⟨n - 1, by omega⟩
  simp [List.replicate_succ, calculate_returns, pct_replicate p hp k]

lemma fvals_replicate (k : ℕ) (a : ℚ) :
    fvals (List.replicate k (some a)) = List.replicate k a := by
  induction k with
  | zero => rfl
  | succ j ih => simp [List.replicate_succ, fvals, ih]

lemma fvals_none_cons (l : List FVal) : fvals (none :: l) = fvals l := by
  simp [fvals]

lemma meanQ_replicate_zero (k : ℕ) : meanQ (List.replicate k 0) = 0 := by
  simp [meanQ, List.sum_replicate]

lemma svarQ_replicate_zero (k : ℕ) : svarQ (List.replicate k 0) = 0 := by
  simp [svarQ, meanQ_replicate_zero, List.map_replicate, List.sum_replicate]

lemma cumprodSkip_one_replicate (k : ℕ) : ∀ a : ℚ,
    cumprodSkip a (List.replicate k (some 1)) = List.replicate k (some a) := by
  induction k with
  | zero => intro a; rfl
  | succ j ih => intro a; simp [List.replicate_succ, cumprodSkip, ih]

lemma cummaxSkip_one_replicate (k : ℕ) :
    cummaxSkip (some 1) (List.replicate k (some (1 : ℚ))) = List.replicate k (some 1) := by
  induction k with
  | zero => rfl
  | succ j ih => simp [List.replicate_succ, cummaxSkip, max_self, ih]

lemma zipWith_replicate_same (f : FVal → FVal → FVal) (k : ℕ) (a b : FVal) :
    List.zipWith f (List.replicate k a) (List.replicate k b) = List.replicate k (f a b) := by
  induction k with
  | zero => rfl
  | succ j ih => simp [List.replicate_succ, ih]

lemma foldl_min_replicate (a : ℚ) (j : ℕ) :
    (List.replicate j a).foldl min a = a := by
  induction j with
  | zero => rfl
  | succ i ih => simp [List.replicate_succ, min_self, ih]

lemma listMinQ_replicate (k : ℕ) (hk : 1 ≤ k) (a : ℚ) :
    listMinQ (List.replicate k a) = some a := by
  obtain ⟨j, rfl⟩ : ∃ j, k = j + 1 := ⟨k - 1, by omega⟩
  rw [List.replicate_succ, listMinQ, foldl_min_replicate]

lemma max_drawdown_none_cons (xs : List FVal) :
    max_drawdown (none :: xs) = max_drawdown xs := by
  simp only [max_drawdown, List.map_cons,
    show fadd (some 1) none = none from rfl, cumprodSkip, cummaxSkip,
    List.zipWith_cons_cons, show fdiv (fsub none none) none = none from rfl,
    minSkip, fvals_none_cons]

lemma max_drawdown_const (k : ℕ) (hk : 1 ≤ k) :
    max_drawdown (none :: List.replicate k (some 0)) = some 0 := by
  have h1 : (none :: List.replicate k (some (0 : ℚ))).map (fun x => fadd (some 1) x) =
      none :: List.replicate k (some 1) := by
    simp [List.map_replicate, fadd]
  have h3 : cummaxSkip none (none :: List.replicate k (some (1 : ℚ))) =
      none :: List.replicate k (some 1) := by
    rw [cummaxSkip]
    congr 1
    obtain ⟨j, rfl⟩ : ∃ j, k = j + 1 := ⟨k - 1, by omega⟩
    rw [List.replicate_succ, cummaxSkip, cummaxSkip_one_replicate]
  have h4 : List.zipWith (fun c p => fdiv (fsub c p) p)
      (none :: List.replicate k (some (1 : ℚ))) (none :: List.replicate k (some 1)) =
      none :: List.replicate k (some 0) := by
    simp only [List.zipWith_cons_cons]
    congr 1
    rw [zipWith_replicate_same]
    have : fdiv (fsub (some (1 : ℚ)) (some 1)) (some 1) = some 0 := by
      rw [fsub, fdiv, if_neg one_ne_zero]
      norm_num
    rw [this]
  simp only [max_drawdown]
  rw [h1, cumprodSkip, cumprodSkip_one_replicate, h3, h4, minSkip, fvals_none_cons,
    fvals_replicate, listMinQ_replicate k hk]

/-- C8 as amended: for a constant price series of n ≥ 2 equal positive
prices, every computed return is 0 (after the kept NaN lead), Max
Drawdown = 0, and Volatility = 0 whenever n ≥ 3; for n = 2 there is a
single return so the sample std itself is NaN and Volatility is NaN too.
The Sharpe Ratio is the silently propagated float division by a zero (or
NaN) standard deviation — a non-finite value, with no explicit
`UndefinedStatistic` policy anywhere in the code. -/
theorem C8_amended (n : ℕ) (p : ℚ) (hn : 2 ≤ n) (hp : 0 < p) :
    calculate_returns (List.replicate n p) = none :: List.replicate (n - 1) (some 0) ∧
    ∃ m, calculate_metrics (calculate_returns (List.replicate n p))
        (calculate_returns (List.replicate n p)) = .ok m ∧
      m.MaxDrawdown = some 0 ∧ m.SharpeRatio = none ∧
      (3 ≤ n → m.Volatility = some 0) ∧ (n = 2 → m.Volatility = none) := by
  have hret := calc_returns_replicate n p (by omega) hp.ne'
  have hfv : fvals (none :: List.replicate (n - 1) (some (0 : ℚ))) =
      List.replicate (n - 1) 0 := by
    rw [fvals_none_cons, fvals_replicate]
  have hsm : skipmean (none :: List.replicate (n - 1) (some (0 : ℚ))) = some 0 := by
    rw [skipmean, hfv, if_neg (by simp [List.replicate_eq_nil]; omega), meanQ_replicate_zero]
  have hmdd := max_drawdown_const (n - 1) (by omega)
  have hsh : sharpe_ratio (none :: List.replicate (n - 1) (some (0 : ℚ))) = none := by
    rcases le_or_lt 3 n with h3 | h3
    · have hv : skipvar (none :: List.replicate (n - 1) (some (0 : ℚ))) = some 0 := by
        rw [skipvar, hfv, if_neg (by simp; omega), svarQ_replicate_zero]
      simp [sharpe_ratio, hsm, stdR, hv, Real.sqrt_zero]
    · have h1 : n - 1 = 1 := by omega
      have hv : skipvar (none :: List.replicate (n - 1) (some (0 : ℚ))) = none := by
        rw [skipvar, hfv, if_pos (by simp [h1])]
      simp [sharpe_ratio, hsm, stdR, hv]
  refine ⟨hret, _, calculate_metrics_ok _ _ rfl, ?_, ?_, ?_, ?_⟩
  · show max_drawdown (calculate_returns (List.replicate n p)) = some 0
    rw [hret, hmdd]
  · show sharpe_ratio (calculate_returns (List.replicate n p)) = none
    rw [hret, hsh]
  · intro h3
    show annualized_volatility (calculate_returns (List.replicate n p)) = some 0
    have hv : skipvar (none :: List.replicate (n - 1) (some (0 : ℚ))) = some 0 := by
      rw [skipvar, hfv, if_neg (by simp; omega), svarQ_replicate_zero]
    rw [hret, annualized_volatility, stdR, hv]
    simp
  · intro h2
    show annualized_volatility (calculate_returns (List.replicate n p)) = none
    have hv : skipvar (none :: List.replicate (n - 1) (some (0 : ℚ))) = none := by
      rw [skipvar, hfv, if_pos (by simp [h2])]
    rw [hret, annualized_volatility, stdR, hv]
    rfl

/-- Witness for C8 at n = 4 constant prices of 5. -/
theorem C8_witness :
    (2 ≤ 4) ∧ (0 < (5 : ℚ)) ∧
    (calculate_returns (List.replicate 4 (5 : ℚ)) =
      none :: List.replicate (4 - 1) (some 0) ∧
    ∃ m, calculate_metrics (calculate_returns (List.replicate 4 (5 : ℚ)))
        (calculate_returns (List.replicate 4 (5 : ℚ))) = .ok m ∧
      m.MaxDrawdown = some 0 ∧ m.SharpeRatio = none ∧
      (3 ≤ 4 → m.Volatility = some 0) ∧ (4 = 2 → m.Volatility = none)) :=
  ⟨by norm_num, by norm_num, C8_amended 4 5 (by norm_num) (by norm_num)⟩

/-- Counterexample to C8 as stated: the constant two-point price series
`[5, 5]` satisfies the claim's hypotheses (all prices equal, at least 2
observations), yet the Volatility field is NaN, not 0 (a single return
remains, and the sample standard deviation with ddof = 1 is NaN), and
the Sharpe Ratio is a silently propagated non-finite float, not the
result of a documented `UndefinedStatistic` policy. -/
theorem C8_cex :
    ∃ m, calculate_metrics (calculate_returns [5, 5]) (calculate_returns [5, 5]) = .ok m ∧
      m.Volatility = none ∧ m.Volatility ≠ some 0 ∧ m.SharpeRatio = none := by
  have hret : calculate_returns [(5 : ℚ), 5] = [none, some 0] := by
    show [none, some ((5 : ℚ)/5 - 1)] = [none, some 0]
    norm_num
  have hv : skipvar [none, some (0 : ℚ)] = none := by
    rw [skipvar, if_pos]
    simp [fvals]
  have hvol : annualized_volatility (calculate_returns [(5 : ℚ), 5]) = none := by
    rw [hret, annualized_volatility, stdR, hv]
    rfl
  have hm : skipmean [none, some (0 : ℚ)] = some 0 := by
    rw [skipmean]
    simp [fvals, meanQ]
  have hsh : sharpe_ratio (calculate_returns [(5 : ℚ), 5]) = none := by
    rw [hret]
    simp [sharpe_ratio, hm, stdR, hv]
  refine ⟨_, calculate_metrics_ok _ _ rfl, hvol, ?_, hsh⟩
  show annualized_volatility (calculate_returns [(5 : ℚ), 5]) ≠ some 0
  rw [hvol]
  simp

/-! ### Claim C9: the concrete scenario prices [100, 110, 121, 108.9] -/

/-- C9: the claim's statistics all hold on the code — mean 1/30 ≈ 0.0333,
stddev ≈ 0.1155, Sharpe ≈ 0.289, Max Drawdown exactly -0.10 — but the
return series is `[NaN, 0.1, 0.1, -0.1]`, not the claimed
`[0.1, 0.1, -0.1]`: the undefined leading entry is kept, not dropped
(the pandas reductions above merely skip it). -/
theorem C9_code_eval :
    calculate_returns [100, 110, 121, 1089/10] ≠
      List.map some [1/10, 1/10, -1/10] ∧
    calculate_returns [100, 110, 121, 1089/10] =
      [none, some (1/10), some (1/10), some (-1/10)] ∧
    skipmean (calculate_returns [100, 110, 121, 1089/10]) = some (1/30) ∧
    skipvar (calculate_returns [100, 110, 121, 1089/10]) = some (1/75) ∧
    ∃ m, calculate_metrics (calculate_returns [100, 110, 121, 1089/10])
        (calculate_returns [100, 110, 121, 1089/10]) = .ok m ∧
      m.MaxDrawdown = some (-1/10) ∧
      (∃ sd, stdR (calculate_returns [100, 110, 121, 1089/10]) = some sd ∧
        |sd - 1155/10000| < 1/10000) ∧
      ∃ s, m.SharpeRatio = some s ∧ |s - 289/1000| < 1/1000 := by
  have hret : calculate_returns [(100 : ℚ), 110, 121, 1089/10] =
      [none, some (1/10), some (1/10), some (-1/10)] := by
    show [none, some ((110 : ℚ)/100 - 1), some ((121 : ℚ)/110 - 1),
      some (((1089 : ℚ)/10)/121 - 1)] = _
    norm_num
  have hfv : fvals [none, some ((1 : ℚ)/10), some (1/10), some (-1/10)] =
      [1/10, 1/10, -1/10] := by simp [fvals]
  have hsm : skipmean (calculate_returns [(100 : ℚ), 110, 121, 1089/10]) = some (1/30) := by
    rw [hret, skipmean, hfv, if_neg (by simp)]
    norm_num [meanQ]
  have hsv : skipvar (calculate_returns [(100 : ℚ), 110, 121, 1089/10]) = some (1/75) := by
    rw [hret, skipvar, hfv, if_neg (by norm_num)]
    norm_num [svarQ, meanQ]
  have hmdd : max_drawdown (calculate_returns [(100 : ℚ), 110, 121, 1089/10]) =
      some (-1/10) := by
    rw [hret, max_drawdown_none_cons]
    have hr : ∀ r ∈ ([1/10, 1/10, -1/10] : List ℚ), -1 < r := by
      intro r hr
      simp only [List.mem_cons, List.not_mem_nil, or_false] at hr
      rcases hr with rfl | rfl | rfl <;> norm_num
    have hb := mdd_bridge [1/10, 1/10, -1/10] hr
    simp only [List.map_cons, List.map_nil] at hb
    rw [hb]
    norm_num [spec_max_drawdown, spec_drawdowns, spec_cumulative, scanProd,
      spec_peaks, runningMax, listMinQ, max_def, min_def]
  have hstd : stdR (calculate_returns [(100 : ℚ), 110, 121, 1089/10]) =
      some (Real.sqrt (1/75)) := by
    rw [stdR, hsv]
    norm_num
  have hb_lo : (1154 : ℝ)/10000 < Real.sqrt (1/75) := by
    rw [show ((1154 : ℝ)/10000) = 0.1154 by norm_num]
    rw [Real.lt_sqrt (by norm_num)]
    norm_num
  have hb_hi : Real.sqrt ((1 : ℝ)/75) < 1156/10000 := by
    rw [show ((1156 : ℝ)/10000) = 0.1156 by norm_num]
    rw [Real.sqrt_lt' (by norm_num)]
    norm_num
  have hb0 : (0 : ℝ) < Real.sqrt (1/75) := Real.sqrt_pos.mpr (by norm_num)
  have hsh : sharpe_ratio (calculate_returns [(100 : ℚ), 110, 121, 1089/10]) =
      some (((1 : ℝ)/30) / Real.sqrt (1/75)) := by
    simp only [sharpe_ratio, hsm, hstd, if_neg hb0.ne']
    norm_num
  refine ⟨by rw [hret]; simp, hret, hsm, hsv, _, calculate_metrics_ok _ _ rfl,
    hmdd, ⟨Real.sqrt (1/75), hstd, ?_⟩, ⟨((1 : ℝ)/30) / Real.sqrt (1/75), hsh, ?_⟩⟩
  · rw [abs_sub_lt_iff]
    constructor <;> nlinarith [hb_lo, hb_hi]
  · have h1 : ((1 : ℝ)/30) / Real.sqrt (1/75) < 290/1000 := by
      rw [div_lt_iff hb0]
      nlinarith [hb_lo]
    have h2 : (288 : ℝ)/1000 < ((1 : ℝ)/30) / Real.sqrt (1/75) := by
      rw [lt_div_iff hb0]
      nlinarith [hb_hi]
    rw [abs_sub_lt_iff]
    constructor <;> linarith

end App
